import Mathlib

/-!
Verification of the optimization utilities of tntorch (tntorch/optimize.py):
the iterative gradient-descent driver optimize and the degrees-of-freedom
counter dof.

The tensor-network objects, the autodiff engine and the Adam optimizer are
external collaborators of this module.  They are embedded abstractly:

* a tensor node carries exactly what optimize.py reads from it: an element
  count (numel), a learnability flag (requires_grad) and an object identity;
* the mutable parameter state together with the optimizer state is an
  abstract state type sigma; one backward-plus-step update is an abstract
  transition stepF : sigma -> sigma, and the loss function is a function of
  the current state;
* loss values are rationals (the stopping logic uses only ordered-field
  arithmetic);
* the while-True loop is a fuel-indexed recursion; fuel maxIter + 1 is
  proved sufficient, so no behaviour is lost;
* console printing is recorded as a ghost output trace, and the number of
  optimizer steps as a ghost counter, so that the observational claims can
  be stated.
-/

namespace Tntorch

/-- Modelled from the spec: a tensor node of the external tensor-network
interface, carrying the only attributes optimize.py reads: an element count,
a learnability flag, and an object identity (Python object identity, used to
talk about sharing of nodes between networks). -/
structure PTensor where
  numel : Nat
  requires_grad : Bool
  oid : Nat
deriving DecidableEq

/-- Modelled from the spec: a tensor-network object exposing an ordered
sequence of core tensors and an ordered sequence of optional factor matrices
(one slot per dimension, possibly absent). -/
structure TNetwork where
  cores : List PTensor
  Us : List (Option PTensor)
deriving DecidableEq

/-- Number of dimensions of a network: one core per dimension. -/
def TNetwork.ndim (t : TNetwork) : Nat := t.cores.length

/-- Loop body of dof: for each dimension n, add cores[n].numel() when
cores[n].requires_grad, and Us[n].numel() when Us[n] is present and
requires_grad.  The source iterates n over range(t.ndim) with
len(cores) = len(Us) = ndim; the simultaneous recursion below is that loop. -/
def dofGo : List PTensor → List (Option PTensor) → Nat
  | [], _ => 0
  | _ :: _, [] => 0
  | c :: cs, u :: us =>
      (if c.requires_grad then c.numel else 0) +
        (match u with
          | some f => if f.requires_grad then f.numel else 0
          | none => 0) +
        dofGo cs us

/-- dof from optimize.py: the number of degrees of freedom of a tensor
network, i.e. the summed sizes of all its learnable nodes. -/
def dof (t : TNetwork) : Nat := dofGo t.cores t.Us

/-- Result of a loss-function call: a scalar, or a tuple or list of scalars. -/
inductive LossResult where
  | scalar (x : ℚ)
  | tup (xs : List ℚ)
deriving DecidableEq

/-- Normalization step of the loop body:
if not isinstance(loss, (tuple, list)): loss = [loss]. -/
def normalizeLoss : LossResult → List ℚ
  | .scalar x => [x]
  | .tup xs => xs

/-- reduce(lambda x, y: x + y, loss): left fold of addition started at the
head.  The source's reduce raises on an empty sequence; that case is never
reached here since the loss list always has at least one component in every
use below. -/
def reduceSum : List ℚ → ℚ
  | [] => 0
  | x :: xs => xs.foldl (fun a b => a + b) x

/-- Stopping criterion of the loop, checked right after appending the latest
combined loss.  The list argument is the loss trace with the most recent
value first, so l1, l2, l3 are losses[-1], losses[-2], losses[-3].  It is
iter >= 2 and tol is not None
  and (losses[-1] <= tol or -delta_loss / losses[-1] <= tol)
  and losses[-2] - losses[-1] < losses[-3] - losses[-2]
with delta_loss = losses[-1] - losses[-2].  When iter >= 2 the trace has at
least three entries, so the wildcard arm is only taken when the conjunction
is false anyway. -/
def stopCriterion (tol : Option ℚ) (iter : Nat) (losses : List ℚ) : Bool :=
  match tol, losses with
  | some t, l1 :: l2 :: l3 :: _ =>
      decide (2 ≤ iter) &&
        (decide (l1 ≤ t) || decide (-(l1 - l2) / l1 ≤ t)) &&
        decide (l2 - l1 < l3 - l2)
  | _, _ => false

/-- Division that records the division-by-zero case instead of totalizing it. -/
def checkedDiv (num den : ℚ) : Option ℚ :=
  if den = 0 then none else some (num / den)

/-- Evaluation-order-faithful rendering of the stopping criterion: Python's
short-circuit or evaluates the quotient -delta_loss / losses[-1] only when
losses[-1] <= tol is false, and the quotient is rendered with checkedDiv, so
the result is none exactly when the source would divide by zero. -/
def stopCriterionChecked (tol : Option ℚ) (iter : Nat) (losses : List ℚ) :
    Option Bool :=
  match tol, losses with
  | some t, l1 :: l2 :: l3 :: _ =>
      if 2 ≤ iter then
        if l1 ≤ t then
          some (decide (l2 - l1 < l3 - l2))
        else
          match checkedDiv (-(l1 - l2)) l1 with
          | none => none
          | some q => some (decide (q ≤ t) && decide (l2 - l1 < l3 - l2))
      else some false
  | _, _ => some false

/-- Observable outcome of one optimize run: the loss trace (most recent
first), the final value of iter, the converged flag, the number of optimizer
steps performed (ghost counter), the final parameter state, and the progress
lines emitted (ghost output trace, one entry per print: the iteration index
and the component losses). -/
structure OptResult (σ : Type) where
  losses : List ℚ
  iter : Nat
  converged : Bool
  steps : Nat
  final : σ
  output : List (Nat × List ℚ)
deriving DecidableEq

/-- The while-True loop of optimize, fuel-indexed.  One pass: zero the
gradients (no observable effect here), evaluate and normalize the loss,
append the combined loss to the trace, check the stopping criterion, check
the iteration budget (iter == max_iter), optionally emit a progress line,
then backpropagate and apply one optimizer step (the abstract transition
stepF) and continue with iter + 1.  Caution: the progress guard below
totalizes Python's iter % print_freq (Nat gives iter % 0 = iter), whereas
the source raises ZeroDivisionError when print_freq = 0 and verbose is
true; that raising path is modelled by loopGoPy below, which agrees with
this loop (lemma loopGoPy_eq_ok) exactly when the guard cannot raise. -/
def loopGo {σ : Type} (lossF : σ → LossResult) (stepF : σ → σ)
    (tol : Option ℚ) (maxIter printFreq : Nat) (verbose : Bool) :
    Nat → σ → List ℚ → List (Nat × List ℚ) → Nat → Nat → Option (OptResult σ)
  | 0, _, _, _, _, _ => none
  | fuel + 1, s, losses, out, iter, steps =>
      let loss := normalizeLoss (lossF s)
      let newLosses := reduceSum loss :: losses
      if stopCriterion tol iter newLosses then
        some ⟨newLosses, iter, true, steps, s, out⟩
      else if iter = maxIter then
        some ⟨newLosses, iter, false, steps, s, out⟩
      else
        loopGo lossF stepF tol maxIter printFreq verbose fuel (stepF s)
          newLosses
          (if verbose && iter % printFreq == 0 then out ++ [(iter, loss)]
            else out)
          (iter + 1) (steps + 1)

/-- The loop of optimize started from its entry state: empty loss trace,
iter = 0, with fuel maxIter + 1 (proved sufficient below). -/
def optimizeRun {σ : Type} (lossF : σ → LossResult) (stepF : σ → σ)
    (init : σ) (tol : Option ℚ) (maxIter printFreq : Nat) (verbose : Bool) :
    Option (OptResult σ) :=
  loopGo lossF stepF tol maxIter printFreq verbose (maxIter + 1) init [] [] 0 0

/-- The tensors argument of optimize: one tensor-network object, or a list
(or tuple) of them. -/
inductive TensorsArg where
  | single (t : TNetwork)
  | list (ts : List TNetwork)

/-- Argument normalization of optimize:
if not isinstance(tensors, (list, tuple)): tensors = [tensors]. -/
def normalizeTensors : TensorsArg → List TNetwork
  | .single t => [t]
  | .list ts => ts

/-- Parameters contributed by one network: its learnable cores in order,
followed by its present learnable factor matrices in order, exactly the two
list comprehensions of optimize. -/
def netParams (t : TNetwork) : List PTensor :=
  (t.cores.filter fun c => c.requires_grad) ++
    t.Us.filterMap fun u =>
      match u with
      | some f => if f.requires_grad then some f else none
      | none => none

/-- The parameter-collection loop of optimize: parameters starts empty and
each network extends it with its learnable cores then its learnable present
factors.  No deduplication is performed. -/
def collectParams (ts : List TNetwork) : List PTensor :=
  ts.foldl (fun parameters t => parameters ++ netParams t) []

/-- Error message raised when no learnable parameter is found. -/
def noParamsMsg : String :=
  "There are no parameters to optimize. Did you forget a requires_grad=True somewhere?"

/-- optimize from optimize.py.  The concrete loss function and the Adam
update are abstracted by lossF, stepF and the initial parameter state init.
The configuration check happens before the loop; the loop itself is
optimizeRun.  The inner Option is the fuel artifact of loopGo and is proved
to always be some. -/
def optimize {σ : Type} (tensors : TensorsArg) (lossF : σ → LossResult)
    (stepF : σ → σ) (init : σ) (tol : Option ℚ)
    (maxIter printFreq : Nat) (verbose : Bool) :
    Except String (Option (OptResult σ)) :=
  let ts := normalizeTensors tensors
  let parameters := collectParams ts
  if parameters.length = 0 then
    Except.error noParamsMsg
  else
    Except.ok (optimizeRun lossF stepF init tol maxIter printFreq verbose)

/-- Combined loss value the loop records at iteration n: the loss function
evaluated on the parameter state after n optimizer steps, normalized and
summed. -/
def traceOf {σ : Type} (lossF : σ → LossResult) (stepF : σ → σ) (init : σ)
    (n : Nat) : ℚ :=
  reduceSum (normalizeLoss (lossF (stepF^[n] init)))

/-- First n values of a trace, most recent first: [f (n-1), ..., f 0]. -/
def revTrace (f : Nat → ℚ) : Nat → List ℚ
  | 0 => []
  | n + 1 => f n :: revTrace f n

/-- The stopping criterion read off a loss trace, at iteration n with
tolerance t: n >= 2, and (f n <= t or -(f n - f (n-1)) / f n <= t), and the
improvement from n-2 to n-1 strictly exceeds the improvement from n-1 to n. -/
def critAt (t : ℚ) (f : Nat → ℚ) (n : Nat) : Prop :=
  2 ≤ n ∧ (f n ≤ t ∨ -(f n - f (n - 1)) / f n ≤ t) ∧
    f (n - 1) - f n < f (n - 2) - f (n - 1)

/-- critAt lifted to an optional tolerance: with tol = none the criterion
never holds. -/
def critOpt : Option ℚ → (Nat → ℚ) → Nat → Prop
  | none, _, _ => False
  | some t, f, n => critAt t f n

/-- Two loop outcomes agree on everything except the ghost output trace:
same loss trace, same iteration count, same converged flag, same number of
optimizer steps, same final parameter state. -/
def sameRun {σ : Type} : Option (OptResult σ) → Option (OptResult σ) → Prop
  | none, none => True
  | some r1, some r2 =>
      r1.losses = r2.losses ∧ r1.iter = r2.iter ∧
        r1.converged = r2.converged ∧ r1.steps = r2.steps ∧
        r1.final = r2.final
  | _, _ => False

/-- Message of the exception Python raises for iter % 0 in the progress
guard at line 54 of optimize.py when print_freq = 0 and verbose is true. -/
def zeroDivMsg : String :=
  "ZeroDivisionError: integer division or modulo by zero"

/-- The while-True loop with Python's evaluation of the progress guard
restored: `verbose and iter % print_freq == 0` first evaluates verbose and,
when it is true, computes iter % print_freq, which raises ZeroDivisionError
if print_freq = 0.  The guard is only reached after the criterion and
budget checks, on a continuing iteration, exactly as in the source.  Except
error is that exception propagating out of optimize; everything else is as
in loopGo. -/
def loopGoPy {σ : Type} (lossF : σ → LossResult) (stepF : σ → σ)
    (tol : Option ℚ) (maxIter printFreq : Nat) (verbose : Bool) :
    Nat → σ → List ℚ → List (Nat × List ℚ) → Nat → Nat →
      Option (Except String (OptResult σ))
  | 0, _, _, _, _, _ => none
  | fuel + 1, s, losses, out, iter, steps =>
      let loss := normalizeLoss (lossF s)
      let newLosses := reduceSum loss :: losses
      if stopCriterion tol iter newLosses then
        some (Except.ok ⟨newLosses, iter, true, steps, s, out⟩)
      else if iter = maxIter then
        some (Except.ok ⟨newLosses, iter, false, steps, s, out⟩)
      else if verbose && printFreq == 0 then
        some (Except.error zeroDivMsg)
      else
        loopGoPy lossF stepF tol maxIter printFreq verbose fuel (stepF s)
          newLosses
          (if verbose && iter % printFreq == 0 then out ++ [(iter, loss)]
            else out)
          (iter + 1) (steps + 1)

/-- The raising-faithful loop started from the entry state of optimize. -/
def optimizeRunPy {σ : Type} (lossF : σ → LossResult) (stepF : σ → σ)
    (init : σ) (tol : Option ℚ) (maxIter printFreq : Nat) (verbose : Bool) :
    Option (Except String (OptResult σ)) :=
  loopGoPy lossF stepF tol maxIter printFreq verbose (maxIter + 1) init
    [] [] 0 0

/-- Agreement of two raising-faithful outcomes up to the ghost output
trace: both raise the same exception, or both complete with the same loss
trace, iteration count, converged flag, step count and final state. -/
def sameRunPy {σ : Type} :
    Option (Except String (OptResult σ)) →
      Option (Except String (OptResult σ)) → Prop
  | none, none => True
  | some (Except.error e1), some (Except.error e2) => e1 = e2
  | some (Except.ok r1), some (Except.ok r2) =>
      r1.losses = r2.losses ∧ r1.iter = r2.iter ∧
        r1.converged = r2.converged ∧ r1.steps = r2.steps ∧
        r1.final = r2.final
  | _, _ => False

/-- Concrete network for the dof witness: a 6-element learnable core, a
4-element frozen core, a 3-element learnable factor and an absent factor. -/
def dofWitnessNet : TNetwork :=
  ⟨[⟨6, true, 1⟩, ⟨4, false, 2⟩], [some ⟨3, true, 3⟩, none]⟩

/-- A learnable one-element core, used to exhibit parameter duplication. -/
def pShared : PTensor := ⟨1, true, 0⟩

/-- A one-dimensional network whose only core is pShared. -/
def tShared : TNetwork := ⟨[pShared], [none]⟩

/-- A network with no learnable node at all, for the no-parameters witness. -/
def frozenArg : TensorsArg :=
  .list [⟨[⟨2, false, 0⟩], [some ⟨3, false, 1⟩]⟩]

/-- Outcome of the concrete converging run used below: scalar losses 4, 2, 1
produced by halving a rational state, with tolerance 1, converge at
iteration 2 after 2 optimizer steps. -/
def convWitnessRes : OptResult ℚ := ⟨[1, 2, 4], 2, true, 2, 1, []⟩

/-- Outcome of a one-evaluation run with a two-component loss (2, 3): the
recorded combined loss is 5 and the budget of 0 steps is exhausted at once. -/
def pairWitnessRes : OptResult Unit := ⟨[5], 0, false, 0, (), []⟩

section Proofs

lemma dofGo_eq_sum :
    ∀ (cs : List PTensor) (us : List (Option PTensor)),
      us.length = cs.length →
      dofGo cs us =
        ((cs.filter fun c => c.requires_grad).map PTensor.numel).sum +
          (((us.filterMap id).filter fun f => f.requires_grad).map
              PTensor.numel).sum := by
  intro cs
  induction cs with
  | nil =>
    intro us h
    cases us with
    | nil => simp [dofGo]
    | cons u us => simp at h
  | cons c cs ih =>
    intro us h
    cases us with
    | nil => simp at h
    | cons u us =>
      have h' : us.length = cs.length := by simpa using h
      have hrec := ih us h'
      rcases u with _ | f
      · cases hc : c.requires_grad <;>
          (simp [dofGo, hc, hrec]; try omega)
      · cases hc : c.requires_grad <;> cases hf : f.requires_grad <;>
          simp [dofGo, hc, hf, hrec] <;> omega

/-- C3: dof returns exactly the sum of element counts over all cores whose
learnability flag is set plus all present factor matrices whose learnability
flag is set; non-learnable nodes contribute 0 and absent factor matrices
contribute 0.  The hypothesis records the tensor-network invariant of one
factor slot per dimension. -/
theorem dof_learnable_sum (t : TNetwork)
    (h : t.Us.length = t.cores.length) :
    dof t =
      ((t.cores.filter fun c => c.requires_grad).map PTensor.numel).sum +
        (((t.Us.filterMap id).filter fun f => f.requires_grad).map
            PTensor.numel).sum :=
  dofGo_eq_sum t.cores t.Us h

/-- Witness for C3 at a concrete two-dimensional network. -/
theorem dof_learnable_sum_witness :
    dofWitnessNet.Us.length = dofWitnessNet.cores.length ∧
      dof dofWitnessNet =
        ((dofWitnessNet.cores.filter fun c => c.requires_grad).map
            PTensor.numel).sum +
          (((dofWitnessNet.Us.filterMap id).filter fun f =>
              f.requires_grad).map PTensor.numel).sum :=
  ⟨rfl, dof_learnable_sum dofWitnessNet rfl⟩

lemma revTrace_length (f : Nat → ℚ) : ∀ n, (revTrace f n).length = n := by
  intro n
  induction n with
  | zero => rfl
  | succ n ih => simp [revTrace, ih]

lemma stopCriterion_revTrace (tol : Option ℚ) (f : Nat → ℚ) (n : Nat) :
    stopCriterion tol n (revTrace f (n + 1)) = true ↔ critOpt tol f n := by
  cases tol with
  | none =>
    constructor
    · intro h
      rcases hm : revTrace f (n + 1) with _ | ⟨l1, _ | ⟨l2, _ | ⟨l3, rest⟩⟩⟩ <;>
        rw [hm] at h <;> simp [stopCriterion] at h
    · intro h; exact absurd h (by simp [critOpt])
  | some t =>
    match n with
    | 0 => simp [stopCriterion, revTrace, critOpt, critAt]
    | 1 => simp [stopCriterion, revTrace, critOpt, critAt]
    | n + 2 =>
      show stopCriterion (some t) (n + 2)
          (f (n + 2) :: f (n + 1) :: f n :: revTrace f n) = true ↔ _
      simp only [stopCriterion, critOpt, critAt, Bool.and_eq_true,
        Bool.or_eq_true, decide_eq_true_eq]
      constructor
      · rintro ⟨⟨-, hdisj⟩, hdec⟩
        refine ⟨by omega, ?_, ?_⟩
        · simpa using hdisj
        · simpa using hdec
      · rintro ⟨-, hdisj, hdec⟩
        refine ⟨⟨by omega, ?_⟩, ?_⟩
        · simpa using hdisj
        · simpa using hdec

lemma loopGo_characterize {σ : Type} (lossF : σ → LossResult)
    (stepF : σ → σ) (init : σ) (tol : Option ℚ)
    (maxIter printFreq : Nat) (verbose : Bool) :
    ∀ (fuel k steps0 : Nat) (out : List (Nat × List ℚ)),
      k ≤ maxIter → maxIter + 1 - k ≤ fuel →
      ∃ r : OptResult σ,
        loopGo lossF stepF tol maxIter printFreq verbose fuel
            (stepF^[k] init) (revTrace (traceOf lossF stepF init) k)
            out k steps0 = some r ∧
        r.losses = revTrace (traceOf lossF stepF init) (r.iter + 1) ∧
        r.final = stepF^[r.iter] init ∧
        r.steps = steps0 + (r.iter - k) ∧
        k ≤ r.iter ∧ r.iter ≤ maxIter ∧
        ((r.converged = true ∧
            critOpt tol (traceOf lossF stepF init) r.iter ∧
            ∀ m, k ≤ m → m < r.iter →
              ¬ critOpt tol (traceOf lossF stepF init) m) ∨
          (r.converged = false ∧ r.iter = maxIter ∧
            ∀ m, k ≤ m → m ≤ maxIter →
              ¬ critOpt tol (traceOf lossF stepF init) m)) := by
  intro fuel
  induction fuel with
  | zero => intro k steps0 out hk hfuel; omega
  | succ fuel ih =>
    intro k steps0 out hk hfuel
    have hsum : reduceSum (normalizeLoss (lossF (stepF^[k] init))) =
        traceOf lossF stepF init k := rfl
    have hcons :
        reduceSum (normalizeLoss (lossF (stepF^[k] init))) ::
            revTrace (traceOf lossF stepF init) k =
          revTrace (traceOf lossF stepF init) (k + 1) := by
      rw [hsum]; rfl
    rw [loopGo]
    simp only [hcons]
    by_cases hstop :
        stopCriterion tol k (revTrace (traceOf lossF stepF init) (k + 1)) =
          true
    · rw [if_pos hstop]
      refine ⟨⟨revTrace (traceOf lossF stepF init) (k + 1), k, true, steps0,
        stepF^[k] init, out⟩, rfl, rfl, rfl, by simp, le_refl k, hk, ?_⟩
      left
      exact ⟨rfl, (stopCriterion_revTrace tol _ k).mp hstop,
        fun m hkm hmk => (lt_irrefl k (hkm.trans_lt hmk)).elim⟩
    · rw [if_neg hstop]
      have hnot : ¬ critOpt tol (traceOf lossF stepF init) k :=
        fun hc => hstop ((stopCriterion_revTrace tol _ k).mpr hc)
      by_cases hmax : k = maxIter
      · rw [if_pos hmax]
        refine ⟨⟨revTrace (traceOf lossF stepF init) (k + 1), k, false,
          steps0, stepF^[k] init, out⟩, rfl, rfl, rfl, by simp, le_refl k,
          hk, ?_⟩
        right
        refine ⟨rfl, hmax, fun m hkm hmM => ?_⟩
        have : m = k := by omega
        rw [this]; exact hnot
      · rw [if_neg hmax]
        have hlt : k < maxIter := lt_of_le_of_ne hk hmax
        have hstep : stepF (stepF^[k] init) = stepF^[k + 1] init :=
          (Function.iterate_succ_apply' stepF k init).symm
        rw [hstep]
        obtain ⟨r, hr, hl, hf, hs, hk1, hM, hchar⟩ :=
          ih (k + 1) (steps0 + 1)
            (if verbose && k % printFreq == 0 then out ++ [(k,
              normalizeLoss (lossF (stepF^[k] init)))] else out)
            (by omega) (by omega)
        refine ⟨r, hr, hl, hf, by omega, by omega, hM, ?_⟩
        rcases hchar with ⟨hc, hcrit, hmin⟩ | ⟨hc, hiter, hnever⟩
        · left
          refine ⟨hc, hcrit, fun m hkm hmr => ?_⟩
          rcases Nat.eq_or_lt_of_le hkm with heq | hlt'
          · rw [← heq]; exact hnot
          · exact hmin m hlt' hmr
        · right
          refine ⟨hc, hiter, fun m hkm hmM => ?_⟩
          rcases Nat.eq_or_lt_of_le hkm with heq | hlt'
          · rw [← heq]; exact hnot
          · exact hnever m hlt' hmM

lemma optimizeRun_characterize {σ : Type} (lossF : σ → LossResult)
    (stepF : σ → σ) (init : σ) (tol : Option ℚ)
    (maxIter printFreq : Nat) (verbose : Bool) :
    ∃ r : OptResult σ,
      optimizeRun lossF stepF init tol maxIter printFreq verbose = some r ∧
      r.losses = revTrace (traceOf lossF stepF init) (r.iter + 1) ∧
      r.final = stepF^[r.iter] init ∧
      r.steps = r.iter ∧ r.iter ≤ maxIter ∧
      ((r.converged = true ∧
          critOpt tol (traceOf lossF stepF init) r.iter ∧
          ∀ m, m < r.iter → ¬ critOpt tol (traceOf lossF stepF init) m) ∨
        (r.converged = false ∧ r.iter = maxIter ∧
          ∀ m, m ≤ maxIter → ¬ critOpt tol (traceOf lossF stepF init) m)) := by
  obtain ⟨r, hr, hl, hf, hs, -, hM, hchar⟩ :=
    loopGo_characterize lossF stepF init tol maxIter printFreq verbose
      (maxIter + 1) 0 0 [] (Nat.zero_le _) (by omega)
  refine ⟨r, ?_, hl, hf, by omega, hM, ?_⟩
  · simpa [optimizeRun, revTrace] using hr
  · rcases hchar with ⟨hc, hcrit, hmin⟩ | ⟨hc, hiter, hnever⟩
    · exact Or.inl ⟨hc, hcrit, fun m hm => hmin m (Nat.zero_le _) hm⟩
    · exact Or.inr ⟨hc, hiter, fun m hm => hnever m (Nat.zero_le _) hm⟩

lemma foldl_add_eq : ∀ (xs : List ℚ) (x : ℚ),
    xs.foldl (fun a b => a + b) x = x + xs.sum := by
  intro xs
  induction xs with
  | nil => intro x; simp
  | cons y ys ih =>
    intro x
    simp only [List.foldl_cons, List.sum_cons, ih]
    ring

lemma reduceSum_eq_sum : ∀ xs : List ℚ, reduceSum xs = xs.sum
  | [] => by simp [reduceSum]
  | x :: xs => by simp [reduceSum, foldl_add_eq]

/-- C1: with a tolerance supplied, the loop sets converged and stops at an
iteration n exactly when the loop reaches that check (n is within the budget
and the criterion held at no earlier iteration) and there n >= 2, the latest
loss is at most the tolerance or the negative relative improvement
-(loss_n - loss_(n-1)) / loss_n is at most the tolerance, and the
improvement from n-2 to n-1 strictly exceeds the improvement from n-1 to n
(strict less-than on the latest improvement). -/
theorem optimize_converged_iff {σ : Type} (lossF : σ → LossResult)
    (stepF : σ → σ) (init : σ) (t : ℚ) (maxIter printFreq : Nat)
    (verbose : Bool) (n : Nat) (r : OptResult σ)
    (hrun : optimizeRun lossF stepF init (some t) maxIter printFreq
        verbose = some r) :
    (r.converged = true ∧ r.iter = n) ↔
      (n ≤ maxIter ∧ critAt t (traceOf lossF stepF init) n ∧
        ∀ m, m < n → ¬ critAt t (traceOf lossF stepF init) m) := by
  obtain ⟨r', hr', -, -, -, hM, hchar⟩ :=
    optimizeRun_characterize lossF stepF init (some t) maxIter printFreq
      verbose
  rw [hrun] at hr'
  obtain rfl : r = r' := Option.some.inj hr'
  constructor
  · rintro ⟨hc, rfl⟩
    rcases hchar with ⟨-, hcrit, hmin⟩ | ⟨hfalse, -, -⟩
    · exact ⟨hM, hcrit, hmin⟩
    · rw [hc] at hfalse
      exact absurd hfalse (by simp)
  · rintro ⟨hn, hcrit, hmin⟩
    rcases hchar with ⟨hc, hcrit', hmin'⟩ | ⟨-, -, hnever⟩
    · have h1 : ¬ n < r.iter := fun h => hmin' n h hcrit
      have h2 : ¬ r.iter < n := fun h => hmin r.iter h hcrit'
      exact ⟨hc, by omega⟩
    · exact absurd hcrit (hnever n hn)

/-- Witness for C1: losses 4, 2, 1 from halving a rational state with
tolerance 1 converge exactly at iteration 2. -/
theorem optimize_converged_iff_witness :
    (optimizeRun (fun x : ℚ => LossResult.scalar x) (fun x => x / 2) 4
        (some 1) 10 7 false = some convWitnessRes) ∧
      ((convWitnessRes.converged = true ∧ convWitnessRes.iter = 2) ↔
        (2 ≤ 10 ∧
          critAt 1 (traceOf (fun x : ℚ => LossResult.scalar x)
            (fun x => x / 2) 4) 2 ∧
          ∀ m, m < 2 →
            ¬ critAt 1 (traceOf (fun x : ℚ => LossResult.scalar x)
              (fun x => x / 2) 4) m)) :=
 by
  have h : optimizeRun (fun x : ℚ => LossResult.scalar x) (fun x => x / 2) 4
      (some 1) 10 7 false = some convWitnessRes := by
    simp only [optimizeRun, loopGo, normalizeLoss, reduceSum, stopCriterion,
      convWitnessRes]
    norm_num
  exact ⟨h, optimize_converged_iff (fun x : ℚ => LossResult.scalar x)
    (fun x => x / 2) 4 1 10 7 false 2 convWitnessRes h⟩

/-- C5: with tol = None the loop never converges and never exits through the
tolerance branch: the run exists, reports converged = false, and terminates
with iter = max_iter. -/
theorem optimize_tol_none {σ : Type} (lossF : σ → LossResult)
    (stepF : σ → σ) (init : σ) (maxIter printFreq : Nat) (verbose : Bool) :
    ∃ r : OptResult σ,
      optimizeRun lossF stepF init none maxIter printFreq verbose = some r ∧
        r.converged = false ∧ r.iter = maxIter := by
  obtain ⟨r, hr, -, -, -, -, hchar⟩ :=
    optimizeRun_characterize lossF stepF init none maxIter printFreq verbose
  rcases hchar with ⟨-, hcrit, -⟩ | ⟨h1, h2, -⟩
  · exact hcrit.elim
  · exact ⟨r, hr, h1, h2⟩

/-- C4: with a loss function returning the constant scalar c, c nonzero and
above the tolerance, the loop never converges: it runs iterations 0 through
max_iter inclusive, making max_iter + 1 loss evaluations and max_iter
optimizer steps, then breaks on the budget with converged = false. -/
theorem optimize_constant_loss {σ : Type} (stepF : σ → σ) (init : σ)
    (c t : ℚ) (maxIter printFreq : Nat) (verbose : Bool)
    (_hnz : c ≠ 0) (_habove : t < c) :
    ∃ r : OptResult σ,
      optimizeRun (fun _ => LossResult.scalar c) stepF init (some t)
          maxIter printFreq verbose = some r ∧
        r.converged = false ∧ r.iter = maxIter ∧
        r.losses.length = maxIter + 1 ∧ r.steps = maxIter := by
  obtain ⟨r, hr, hl, -, hs, -, hchar⟩ :=
    optimizeRun_characterize (fun _ => LossResult.scalar c) stepF init
      (some t) maxIter printFreq verbose
  have htr : ∀ n, traceOf (fun _ => LossResult.scalar c) stepF init n = c :=
    fun n => rfl
  rcases hchar with ⟨-, hcrit, -⟩ | ⟨h1, h2, -⟩
  · exfalso
    obtain ⟨-, -, hdec⟩ := hcrit
    simp only [htr] at hdec
    exact lt_irrefl _ hdec
  · refine ⟨r, hr, h1, h2, ?_, ?_⟩
    · rw [hl, revTrace_length, h2]
    · rw [hs, h2]

/-- Witness for C4: constant loss 1 with tolerance 0 and max_iter = 1. -/
theorem optimize_constant_loss_witness :
    (1 : ℚ) ≠ 0 ∧ (0 : ℚ) < 1 ∧
      ∃ r : OptResult Unit,
        optimizeRun (fun _ => LossResult.scalar 1) (fun u => u) () (some 0)
            1 1 false = some r ∧
          r.converged = false ∧ r.iter = 1 ∧
          r.losses.length = 1 + 1 ∧ r.steps = 1 :=
  ⟨by norm_num, by norm_num,
    optimize_constant_loss (fun u => u) () 1 0 1 1 false (by norm_num)
      (by norm_num)⟩

/-- C6: the loop normalizes a non-sequence loss result into a singleton
sequence, the value appended to the loss trace is the sum of all components
of the returned sequence, and for a loss function returning a tuple of two
scalars every recorded combined loss equals their sum. -/
theorem optimize_loss_sum {σ : Type} (f g : σ → ℚ) (stepF : σ → σ)
    (init : σ) (tol : Option ℚ) (maxIter printFreq : Nat) (verbose : Bool)
    (r : OptResult σ)
    (hrun : optimizeRun (fun s => LossResult.tup [f s, g s]) stepF init tol
        maxIter printFreq verbose = some r) :
    (∀ x : ℚ, normalizeLoss (LossResult.scalar x) = [x]) ∧
      (∀ xs : List ℚ, reduceSum xs = xs.sum) ∧
      r.losses =
        revTrace (fun n => f (stepF^[n] init) + g (stepF^[n] init))
          (r.iter + 1) := by
  refine ⟨fun x => rfl, reduceSum_eq_sum, ?_⟩
  obtain ⟨r', hr', hl, -, -, -, -⟩ :=
    optimizeRun_characterize (fun s => LossResult.tup [f s, g s]) stepF init
      tol maxIter printFreq verbose
  rw [hrun] at hr'
  obtain rfl : r = r' := Option.some.inj hr'
  have htr : traceOf (fun s => LossResult.tup [f s, g s]) stepF init =
      fun n => f (stepF^[n] init) + g (stepF^[n] init) := by
    funext n
    show reduceSum [f (stepF^[n] init), g (stepF^[n] init)] = _
    simp [reduceSum]
  rw [← htr]
  exact hl

/-- Witness for C6: component losses 2 and 3 with a budget of zero steps
record the single combined loss 5. -/
theorem optimize_loss_sum_witness :
    (optimizeRun (fun _ : Unit => LossResult.tup [2, 3]) (fun u => u) ()
        none 0 1 false = some pairWitnessRes) ∧
      pairWitnessRes.losses =
        revTrace (fun _ => (2 : ℚ) + 3) (pairWitnessRes.iter + 1) := by
  have h : optimizeRun (fun _ : Unit => LossResult.tup [2, 3]) (fun u => u)
      () none 0 1 false = some pairWitnessRes := by
    simp only [optimizeRun, loopGo, normalizeLoss, reduceSum, stopCriterion,
      pairWitnessRes]
    norm_num
  exact ⟨h, (optimize_loss_sum (fun _ : Unit => 2) (fun _ : Unit => 3)
    (fun u => u) () none 0 1 false pairWitnessRes h).2.2⟩

lemma loopGo_verbose_indep {σ : Type} (lossF : σ → LossResult)
    (stepF : σ → σ) (tol : Option ℚ) (maxIter : Nat) :
    ∀ (fuel : Nat) (s : σ) (losses : List ℚ) (iter steps : Nat)
      (out1 out2 : List (Nat × List ℚ)) (printFreq1 printFreq2 : Nat)
      (verbose1 verbose2 : Bool),
      sameRun
        (loopGo lossF stepF tol maxIter printFreq1 verbose1 fuel s losses
          out1 iter steps)
        (loopGo lossF stepF tol maxIter printFreq2 verbose2 fuel s losses
          out2 iter steps) := by
  intro fuel
  induction fuel with
  | zero =>
    intro s losses iter steps out1 out2 pf1 pf2 vb1 vb2
    exact trivial
  | succ fuel ih =>
    intro s losses iter steps out1 out2 pf1 pf2 vb1 vb2
    rw [loopGo, loopGo]
    by_cases hstop : stopCriterion tol iter
        (reduceSum (normalizeLoss (lossF s)) :: losses) = true
    · simp only [hstop, if_true]
      exact ⟨rfl, rfl, rfl, rfl, rfl⟩
    · simp only [Bool.not_eq_true] at hstop
      simp only [hstop, Bool.false_eq_true, if_false]
      by_cases hmax : iter = maxIter
      · simp only [hmax, if_true]
        exact ⟨rfl, rfl, rfl, rfl, rfl⟩
      · simp only [hmax, if_false]
        exact ih (stepF s) _ (iter + 1) (steps + 1) _ _ pf1 pf2 vb1 vb2

lemma loopGoPy_eq_ok {σ : Type} (lossF : σ → LossResult) (stepF : σ → σ)
    (tol : Option ℚ) (maxIter printFreq : Nat) (verbose : Bool)
    (hguard : verbose = true → 1 ≤ printFreq) :
    ∀ (fuel : Nat) (s : σ) (losses : List ℚ) (out : List (Nat × List ℚ))
      (iter steps : Nat),
      loopGoPy lossF stepF tol maxIter printFreq verbose fuel s losses out
          iter steps =
        (loopGo lossF stepF tol maxIter printFreq verbose fuel s losses out
            iter steps).map Except.ok := by
  have herr : (verbose && printFreq == 0) = false := by
    cases hv : verbose with
    | false => rfl
    | true =>
      have h1 := hguard hv
      simp only [Bool.true_and, beq_eq_false_iff_ne, ne_eq]
      omega
  intro fuel
  induction fuel with
  | zero => intro s losses out iter steps; rfl
  | succ fuel ih =>
    intro s losses out iter steps
    rw [loopGoPy, loopGo]
    by_cases hstop : stopCriterion tol iter
        (reduceSum (normalizeLoss (lossF s)) :: losses) = true
    · simp only [hstop, if_true]
      rfl
    · simp only [Bool.not_eq_true] at hstop
      simp only [hstop, Bool.false_eq_true, if_false]
      by_cases hmax : iter = maxIter
      · simp only [hmax, if_true]
        rfl
      · simp only [hmax, if_false, herr, Bool.false_eq_true]
        exact ih (stepF s) _ _ (iter + 1) (steps + 1)

lemma sameRun_map_ok {σ : Type} (o1 o2 : Option (OptResult σ))
    (h : sameRun o1 o2) :
    sameRunPy (o1.map Except.ok) (o2.map Except.ok) := by
  cases o1 with
  | none =>
    cases o2 with
    | none => exact trivial
    | some r2 => exact h.elim
  | some r1 =>
    cases o2 with
    | none => exact h.elim
    | some r2 => exact h

/-- C8 counterexample: with print_freq = 0 and max_iter = 1 the source
raises ZeroDivisionError at the progress guard of iteration 0 when verbose
is true (the guard computes iter % 0), but completes both iterations when
verbose is false: two calls differing only in the verbose flag produce
different outcomes, so progress reporting as claimed is not purely
observational. -/
theorem optimize_verbose_zero_div_counterexample :
    optimizeRunPy (fun _ : Unit => LossResult.scalar 1) (fun u => u) ()
        (some 0) 1 0 true = some (Except.error zeroDivMsg) ∧
      optimizeRunPy (fun _ : Unit => LossResult.scalar 1) (fun u => u) ()
          (some 0) 1 0 false =
        some (Except.ok ⟨[1, 1], 1, false, 1, (), []⟩) ∧
      ¬ sameRunPy
        (optimizeRunPy (fun _ : Unit => LossResult.scalar 1) (fun u => u) ()
          (some 0) 1 0 true)
        (optimizeRunPy (fun _ : Unit => LossResult.scalar 1) (fun u => u) ()
          (some 0) 1 0 false) := by
  have h1 : optimizeRunPy (fun _ : Unit => LossResult.scalar 1) (fun u => u)
      () (some 0) 1 0 true = some (Except.error zeroDivMsg) := by
    simp only [optimizeRunPy, loopGoPy, normalizeLoss, reduceSum,
      stopCriterion]
    norm_num
  have h2 : optimizeRunPy (fun _ : Unit => LossResult.scalar 1) (fun u => u)
      () (some 0) 1 0 false =
      some (Except.ok ⟨[1, 1], 1, false, 1, (), []⟩) := by
    simp only [optimizeRunPy, loopGoPy, normalizeLoss, reduceSum,
      stopCriterion]
    norm_num
  refine ⟨h1, h2, ?_⟩
  rw [h1, h2]
  simp [sameRunPy]

/-- C8 amended: progress reporting is purely observational whenever the
progress guard cannot raise, i.e. for each run verbose is false or
print_freq is at least 1 (with print_freq = 0 and verbose on, the source
instead raises ZeroDivisionError at the first continuing iteration, see the
counterexample).  Under that proviso two runs differing only in the verbose
flag or the print_freq value produce the same loss trace, the same
converged status, the same iteration count, the same number of optimizer
steps and the same final parameter state; the updates being the
deterministic iterates of the step function from the same initial state,
the whole sequence of parameter updates coincides. -/
theorem optimize_verbose_observational_guarded {σ : Type}
    (lossF : σ → LossResult) (stepF : σ → σ) (init : σ) (tol : Option ℚ)
    (maxIter printFreq1 printFreq2 : Nat) (verbose1 verbose2 : Bool)
    (hg1 : verbose1 = true → 1 ≤ printFreq1)
    (hg2 : verbose2 = true → 1 ≤ printFreq2) :
    sameRunPy
      (optimizeRunPy lossF stepF init tol maxIter printFreq1 verbose1)
      (optimizeRunPy lossF stepF init tol maxIter printFreq2 verbose2) := by
  simp only [optimizeRunPy]
  rw [loopGoPy_eq_ok lossF stepF tol maxIter printFreq1 verbose1 hg1,
    loopGoPy_eq_ok lossF stepF tol maxIter printFreq2 verbose2 hg2]
  exact sameRun_map_ok _ _
    (loopGo_verbose_indep lossF stepF tol maxIter (maxIter + 1) init [] 0 0
      [] [] printFreq1 printFreq2 verbose1 verbose2)

/-- Witness for the amended C8: a verbose run with print_freq 1 against a
silent run with print_freq 0, on a constant unit loss with budget 1. -/
theorem optimize_verbose_observational_guarded_witness :
    (true = true → 1 ≤ 1) ∧ (false = true → 1 ≤ 0) ∧
      sameRunPy
        (optimizeRunPy (fun _ : Unit => LossResult.scalar 1) (fun u => u) ()
          none 1 1 true)
        (optimizeRunPy (fun _ : Unit => LossResult.scalar 1) (fun u => u) ()
          none 1 0 false) :=
  ⟨fun _ => le_refl 1, fun h => absurd h (by simp),
    optimize_verbose_observational_guarded
      (fun _ : Unit => LossResult.scalar 1) (fun u => u) () none 1 1 0
      true false (fun _ => le_refl 1) (fun h => absurd h (by simp))⟩

/-- C9: a single tensor-network argument behaves exactly like the singleton
list containing it: the normalized network list is the same (hence the same
parameter collection and the same configuration check) and optimize returns
the same outcome for every loss function, step dynamics, tolerance, budget
and reporting configuration. -/
theorem optimize_single_singleton (t : TNetwork) :
    normalizeTensors (TensorsArg.single t) =
        normalizeTensors (TensorsArg.list [t]) ∧
      ∀ (σ : Type) (lossF : σ → LossResult) (stepF : σ → σ) (init : σ)
        (tol : Option ℚ) (maxIter printFreq : Nat) (verbose : Bool),
        optimize (TensorsArg.single t) lossF stepF init tol maxIter
            printFreq verbose =
          optimize (TensorsArg.list [t]) lossF stepF init tol maxIter
            printFreq verbose :=
  ⟨rfl, fun _ _ _ _ _ _ _ _ => rfl⟩

lemma netParams_eq_nil (t : TNetwork)
    (hc : ∀ c ∈ t.cores, c.requires_grad = false)
    (hu : ∀ f ∈ t.Us.filterMap id, f.requires_grad = false) :
    netParams t = [] := by
  unfold netParams
  rw [List.append_eq_nil]
  constructor
  · rw [List.filter_eq_nil_iff]
    intro c hcm
    simp [hc c hcm]
  · rw [List.filterMap_eq_nil_iff]
    intro u hum
    cases u with
    | none => rfl
    | some f =>
      have hf : f ∈ t.Us.filterMap id :=
        List.mem_filterMap.mpr ⟨some f, hum, rfl⟩
      simp [hu f hf]

lemma foldl_append_eq : ∀ (ts : List TNetwork) (acc : List PTensor),
    ts.foldl (fun parameters t => parameters ++ netParams t) acc =
      acc ++ (ts.map netParams).flatten := by
  intro ts
  induction ts with
  | nil => intro acc; simp
  | cons t ts ih =>
    intro acc
    simp only [List.foldl_cons, List.map_cons, List.flatten_cons, ih,
      List.append_assoc]

lemma collectParams_eq_join (ts : List TNetwork) :
    collectParams ts = (ts.map netParams).flatten := by
  unfold collectParams
  rw [foldl_append_eq]
  simp

/-- C2: when no core and no present factor matrix of any supplied network
has its learnability flag set, optimize fails with the no-parameters
configuration error, uniformly in the loss function and the optimizer
dynamics: the loss function is never evaluated and no loop iteration
happens. -/
theorem optimize_no_learnable_params (tensors : TensorsArg)
    (h : ∀ t ∈ normalizeTensors tensors,
      (∀ c ∈ t.cores, c.requires_grad = false) ∧
        (∀ f ∈ t.Us.filterMap id, f.requires_grad = false)) :
    ∀ (σ : Type) (lossF : σ → LossResult) (stepF : σ → σ) (init : σ)
      (tol : Option ℚ) (maxIter printFreq : Nat) (verbose : Bool),
      optimize tensors lossF stepF init tol maxIter printFreq verbose =
        Except.error noParamsMsg := by
  intro σ lossF stepF init tol maxIter printFreq verbose
  have hnil : collectParams (normalizeTensors tensors) = [] := by
    rw [collectParams_eq_join]
    rw [List.flatten_eq_nil_iff]
    intro l hl
    rcases List.mem_map.mp hl with ⟨t, ht, rfl⟩
    exact netParams_eq_nil t (h t ht).1 (h t ht).2
  simp only [optimize, hnil, List.length_nil, if_pos]

/-- Witness for C2: a network with one frozen core and one frozen factor. -/
theorem optimize_no_learnable_params_witness :
    (∀ t ∈ normalizeTensors frozenArg,
      (∀ c ∈ t.cores, c.requires_grad = false) ∧
        (∀ f ∈ t.Us.filterMap id, f.requires_grad = false)) ∧
      optimize frozenArg (fun _ : Unit => LossResult.scalar 0) (fun u => u)
          () (some 1) 5 1 true = Except.error noParamsMsg :=
  ⟨by decide,
    optimize_no_learnable_params frozenArg (by decide) Unit
      (fun _ => LossResult.scalar 0) (fun u => u) () (some 1) 5 1 true⟩

/-- C7 counterexample: pShared is a learnable core shared (same object
identity) by the two supplied networks, yet the collected parameter list
contains it twice: optimize performs no deduplication by identity, so the
claim that each learnable node appears at most once is false. -/
theorem collectParams_dup_counterexample :
    collectParams [tShared, tShared] = [pShared, pShared] ∧
      ¬ (collectParams [tShared, tShared]).count pShared ≤ 1 := by
  exact ⟨by decide, by decide⟩

/-- C7 amended: the collected parameter list is the per-network
concatenation of learnable cores and present learnable factors with no
deduplication: the multiplicity of any node in it equals the sum over the
supplied networks of its occurrences among that network's learnable
parameters, so a node shared by several networks appears once per network
rather than at most once. -/
theorem collectParams_multiplicity (ts : List TNetwork) (p : PTensor) :
    (collectParams ts).count p =
      (ts.map fun t => (netParams t).count p).sum := by
  rw [collectParams_eq_join]
  induction ts with
  | nil => simp
  | cons t ts ih =>
    simp only [List.map_cons, List.flatten_cons, List.count_append, List.sum_cons,
      ih]

/-- C10: for every nonnegative tolerance, the evaluation-order-faithful
criterion never reaches its division-by-zero case and agrees with the total
criterion used by the loop: the short-circuit disjunction evaluates the
quotient -delta_loss / losses[-1] only when losses[-1] <= tol is false, and
then the denominator exceeds the tolerance, hence is nonzero. -/
theorem stopCriterion_div_safe (t : ℚ) (iter : Nat) (losses : List ℚ)
    (ht : 0 ≤ t) :
    stopCriterionChecked (some t) iter losses =
      some (stopCriterion (some t) iter losses) := by
  rcases losses with _ | ⟨l1, _ | ⟨l2, _ | ⟨l3, rest⟩⟩⟩
  · rfl
  · rfl
  · rfl
  · show (if 2 ≤ iter then _ else _) = _
    by_cases hiter : 2 ≤ iter
    · rw [if_pos hiter]
      by_cases hl1 : l1 ≤ t
      · rw [if_pos hl1]
        simp [stopCriterion, hiter, hl1]
      · rw [if_neg hl1]
        have hne : l1 ≠ 0 := by
          intro h0
          exact hl1 (h0 ▸ ht)
        show (match checkedDiv (-(l1 - l2)) l1 with
          | none => none
          | some q => some (decide (q ≤ t) && decide (l2 - l1 < l3 - l2))) = _
        rw [checkedDiv, if_neg hne]
        simp [stopCriterion, hiter, hl1]
    · rw [if_neg hiter]
      simp [stopCriterion, hiter]

/-- Witness for C10 at tolerance 0 and a constant unit loss trace. -/
theorem stopCriterion_div_safe_witness :
    (0 : ℚ) ≤ 0 ∧
      stopCriterionChecked (some 0) 2 [1, 1, 1] =
        some (stopCriterion (some 0) 2 [1, 1, 1]) :=
  ⟨le_refl 0, stopCriterion_div_safe 0 2 [1, 1, 1] (le_refl 0)⟩

end Proofs

end Tntorch
